import Mathlib

/-!
Verification of the client-side portfolio script `assets/js/main.js`
(repository erwanngao-maker/Portfolio).

The script is a browser UI-and-fetch glue layer.  We shallowly embed its
pure computational content in Lean:

* JavaScript strings are Lean `String`s, and the JS string primitives the
  script uses (`trim`, `toLowerCase`, `includes`, `replace` with a string
  pattern, `split`, template-literal concatenation) are re-implemented on
  `List Char` so that everything evaluates by `decide`.
* `null`/`undefined` values are `Option`s, and JS truthiness tests on
  strings are modelled as `≠ ""` on the `some` case.
* Network calls are modelled by their request descriptions plus an
  explicit response value; a rejected promise is the `none` / `.error`
  case of the response argument.
* External libraries (`marked.parse`, `DOMPurify.sanitize`, `atob`,
  `decodeURIComponent`, date formatting) are opaque function parameters.
-/

namespace Portfolio

/-! ## JS string primitives on `List Char` -/

/-- `String.prototype.toLowerCase` (ASCII-faithful). -/
def jsToLower (s : String) : String := ⟨s.data.map Char.toLower⟩

/-- whitespace trimming on a character list, both ends. -/
def trimChars (l : List Char) : List Char :=
  ((l.dropWhile Char.isWhitespace).reverse.dropWhile Char.isWhitespace).reverse

/-- `String.prototype.trim`. -/
def jsTrim (s : String) : String := ⟨trimChars s.data⟩

/-- Does `pat` occur as a contiguous subsequence of the list?  This is
`String.prototype.includes` at the character level. -/
def containsSeq (pat : List Char) : List Char → Bool
  | [] => pat.isEmpty
  | c :: cs => pat.isPrefixOf (c :: cs) || containsSeq pat cs

/-- `haystack.includes(needle)`. -/
def jsIncludes (haystack needle : String) : Bool :=
  containsSeq needle.data haystack.data

/-- `String.prototype.replace` with a plain-string pattern: replace the
first occurrence of `pat` by `rep` (the JS semantics; it never replaces
more than one occurrence). -/
def replaceFirstChars (pat rep : List Char) : List Char → List Char
  | [] => if pat.isEmpty then rep else []
  | c :: cs =>
    if pat.isPrefixOf (c :: cs) then rep ++ (c :: cs).drop pat.length
    else c :: replaceFirstChars pat rep cs

/-- `s.replace(pat, rep)` for a string pattern. -/
def jsReplaceFirst (s pat rep : String) : String :=
  ⟨replaceFirstChars pat.data rep.data s.data⟩

/-- `String.prototype.split` on a single-character separator. -/
def jsSplitOn (sep : Char) (s : String) : List String :=
  (s.data.splitOn sep).map (fun l => (⟨l⟩ : String))

/-- Truthiness of a JS string-or-nullish value: `null`/`undefined` and
`""` are falsy. -/
def strTruthy : Option String → Bool
  | some s => s != ""
  | none => false

theorem isPrefixOf_self_append (l t : List Char) : l.isPrefixOf (l ++ t) = true := by
  induction l with
  | nil => simp [ List.isPrefixOf]
  | cons c cs ih => simp [ List.isPrefixOf, ih]

theorem replaceFirstChars_append (pat rep t : List Char) :
    replaceFirstChars pat rep (pat ++ t) = rep ++ t := by
  cases pat with
  | nil =>
    cases t with
    | nil => simp [replaceFirstChars]
    | cons c cs => simp [replaceFirstChars, List.isPrefixOf]
  | cons p ps =>
    have hpre := isPrefixOf_self_append (p :: ps) t
    have hd : List.drop (p :: ps).length ((p :: ps) ++ t) = t := List.drop_left _ _
    simp only [List.cons_append] at hpre hd
    simp [replaceFirstChars, hpre, hd]

theorem containsSeq_self_append (pat t : List Char) :
    containsSeq pat (pat ++ t) = true := by
  cases pat with
  | nil =>
    cases t with
    | nil => rfl
    | cons c cs => simp [containsSeq, List.isPrefixOf]
  | cons p ps =>
    have hpre := isPrefixOf_self_append (p :: ps) t
    simp only [List.cons_append, containsSeq] at hpre ⊢
    simp [hpre]

theorem containsSeq_append_left (pat pre l : List Char)
    (h : containsSeq pat l = true) : containsSeq pat (pre ++ l) = true := by
  induction pre with
  | nil => simpa using h
  | cons c cs ih =>
    simp only [List.cons_append, containsSeq]
    simp [ih]

/-! ## Data model

`Repo` carries the repository-summary fields the script reads; `Curated`
carries the fields read off a curated-override entry (`description`,
`short`, `tags`).  The JS property `_curated` that the merge step adds to
a repository object is the `_curated` field (`none` before merging). -/

structure Curated where
  description : Option String
  short : Option String
  tags : Option (List String)
deriving DecidableEq

structure Repo where
  name : String
  full_name : String
  description : Option String
  language : Option String
  stargazers_count : Nat
  html_url : String
  homepage : Option String
  updated_at : String
  _curated : Option Curated
deriving DecidableEq

/-! ## C1: client-side filtering (`applyFilters`, main.js 218–236) -/

/-- The curated-tags contribution to the search haystack:
`r._curated && r._curated.tags ? r._curated.tags.join(" ") : ""`. -/
def tagsJoined (r : Repo) : String :=
  match r._curated with
  | some c =>
    match c.tags with
    | some ts => String.intercalate " " ts
    | none => ""
  | none => ""

/-- The search haystack of `applyFilters`:
`[r.name, r.description, r.language, tags].filter(Boolean).join(" ").toLowerCase()`. -/
def hay (r : Repo) : String :=
  jsToLower (String.intercalate " "
    (([some r.name, r.description, r.language, some (tagsJoined r)].filterMap id).filter
      (fun s => s != "")))

/-- The per-repository predicate of `applyFilters` (`q'` is the already
trimmed and lowercased query). -/
def filterPred (q' lang : String) (r : Repo) : Bool :=
  if lang != "" && r.language != some lang then false
  else if q' == "" then true
  else jsIncludes (hay r) q'

/-- `applyFilters` (main.js 218–236): trim+lowercase the query, keep the
repositories passing the language and haystack tests, in order. -/
def applyFilters (q lang : String) (repos : List Repo) : List Repo :=
  repos.filter (filterPred (jsToLower (jsTrim q)) lang)

theorem filterPred_eq_true_iff (q' lang : String) (r : Repo) :
    filterPred q' lang r = true ↔
      ((lang = "" ∨ r.language = some lang) ∧
        (q' = "" ∨ jsIncludes (hay r) q' = true)) := by
  by_cases hl : lang = "" <;> by_cases hq : q' = "" <;>
    by_cases hlang : r.language = some lang <;>
      simp [filterPred, hl, hq, hlang]

/-- C1: a repository is in the filtered list iff it is among the loaded
repositories, its language passes the (possibly empty) language
selection, and the trimmed lowercased query is empty or occurs in the
lowercased haystack built from its name, description, language and
curated tags; the relative order is preserved (the filtered list is a
sublist of the input). -/
theorem c1_applyFilters_spec (q lang : String) (repos : List Repo) :
    (∀ r : Repo, r ∈ applyFilters q lang repos ↔
      (r ∈ repos ∧ (lang = "" ∨ r.language = some lang) ∧
        (jsToLower (jsTrim q) = "" ∨
          jsIncludes (hay r) (jsToLower (jsTrim q)) = true))) ∧
    List.Sublist (applyFilters q lang repos) repos := by
  refine ⟨fun r => ?_, List.filter_sublist repos⟩
  rw [applyFilters, List.mem_filter, filterPred_eq_true_iff]

/-! ## C2: README fetch, decode and render
(`fetchReadme`, main.js 132–143; `openProject`, main.js 258–267) -/

structure ReadmeResp where
  ok : Bool
  content : Option String
deriving DecidableEq

/-- `json.content.replace(/\n/g, "")`. -/
def stripNewlines (s : String) : String :=
  ⟨s.data.filter (fun c => c != '\n')⟩

/-- `fetchReadme` (main.js 132–143) applied to a delivered response
(`atob` is the browser base64 decoder, passed opaquely): `null` on a
non-ok status or missing/empty `content`, otherwise the decode of the
newline-stripped content. -/
def fetchReadme (atob : String → String) (resp : ReadmeResp) : Option String :=
  if !resp.ok then none
  else
    match resp.content with
    | some c => if c != "" then some (atob (stripNewlines c)) else none
    | none => none

/-- The fixed placeholder of `openProject` when no README is shown. -/
def noReadmeHtml : String :=
  "<p class=\"text-sm text-slate-500\">No README found.</p>"

/-- The markdown block computed by `openProject` (main.js 258–267):
`DOMPurify.sanitize(marked.parse(readme))` when `readme` is truthy, the
placeholder otherwise.  `parse` and `sanitize` are the external
libraries, passed opaquely (the sanitize configuration is fixed in the
call and folded into `sanitize`). -/
def mdHtmlOf (parse sanitize : String → String) (readme : Option String) : String :=
  match readme with
  | some s => if s != "" then sanitize (parse s) else noReadmeHtml
  | none => noReadmeHtml

/-- `<span>` chip used for tags and topics in the templates. -/
def spanTag (t : String) : String :=
  "<span class=\"px-2 py-1 rounded-md bg-slate-100 dark:bg-slate-700\">" ++ t ++ "</span>"

/-- `curatedData && curatedData.tags ? curatedData.tags : []` in
`openProject`, where `curatedData` is `r._curated` when present. -/
def curatedTagsOf (r : Repo) : List String :=
  match r._curated with
  | some c => c.tags.getD []
  | none => []


/-- Everything in the `openProject` success template (main.js 269–307)
that precedes the markdown block (inter-tag indentation whitespace
elided; `fmtDate` stands for
`new Date(...).toLocaleDateString()`). -/
def projectDetailPre (fmtDate : String → String) (r : Repo) (topics : List String) : String :=
  "<div class=\"mb-2\"><div class=\"flex items-start justify-between gap-4\"><div>" ++
  "<h2 class=\"text-2xl font-bold\">" ++ r.name ++ "</h2>" ++
  "<div class=\"text-sm text-slate-500\">" ++ r.description.getD "" ++ "</div>" ++
  "<div class=\"mt-2 text-xs text-slate-400\">Updated " ++ fmtDate r.updated_at ++
      " • ★ " ++ toString r.stargazers_count ++ "</div>" ++
  "<div class=\"mt-3 flex gap-2\">" ++ String.join ((curatedTagsOf r).map spanTag) ++
      String.join (topics.map spanTag) ++ "</div>" ++
  "</div><div class=\"text-right\">" ++
  "<a class=\"px-3 py-2 rounded-md border\" href=\"" ++ r.html_url ++
      "\" target=\"_blank\">Repository</a>" ++
  (match r.homepage with
   | some h =>
     if h != "" then
       "<a class=\"ml-2 px-3 py-2 rounded-md border\" href=\"" ++ h ++
         "\" target=\"_blank\">Live</a>"
     else ""
   | none => "") ++
  "</div></div></div><div class=\"prose max-w-none dark:prose-invert\">"

/-- The full HTML `openProject` assigns to `projectDetail.innerHTML` on
success: the header followed by the markdown block. -/
def projectDetailHtml (fmtDate : String → String) (r : Repo) (topics : List String)
    (md : String) : String :=
  projectDetailPre fmtDate r topics ++ md ++ "</div>"

/-- A sample repository summary used to instantiate witnesses. -/
def sampleRepo : Repo :=
  { name := "p", full_name := "u/p", description := some "orig",
    language := some "TypeScript", stargazers_count := 3,
    html_url := "https://example.com/u/p", homepage := none,
    updated_at := "2024-01-01", _curated := none }

/-- C2 counterexample: with an ok README response whose `content` is
`"\n"`, `fetchReadme` succeeds and decodes the README (to the empty
string), yet the markdown block is the placeholder, not the sanitized
parse of the decoded README (`parse`, `sanitize`, `atob` instantiated by
the identity, under which the sanitized parse of `""` is `""`). -/
theorem c2_claim_counterexample :
    fetchReadme id { ok := true, content := some "\n" } = some "" ∧
    mdHtmlOf id id (fetchReadme id { ok := true, content := some "\n" }) = noReadmeHtml ∧
    noReadmeHtml ≠ id (id "") := by
  refine ⟨by decide, by decide, by decide⟩

/-- C2 (amended): when the README fetch yields a non-empty decoded
string `s`, the markdown block inserted into the project detail element
is exactly `sanitize (parse s)`; when no README is obtained (or it
decodes to the empty string) the block is the fixed placeholder; and the
detail HTML contains the block verbatim. -/
theorem c2_readme_render (parse sanitize atob fmtDate : String → String)
    (r : Repo) (topics : List String) (resp : ReadmeResp) :
    (∀ s, fetchReadme atob resp = some s → s ≠ "" →
        mdHtmlOf parse sanitize (fetchReadme atob resp) = sanitize (parse s)) ∧
    (fetchReadme atob resp = none ∨ fetchReadme atob resp = some "" →
        mdHtmlOf parse sanitize (fetchReadme atob resp) = noReadmeHtml) ∧
    (∃ pre post,
        (projectDetailHtml fmtDate r topics
            (mdHtmlOf parse sanitize (fetchReadme atob resp))).data =
          pre ++ (mdHtmlOf parse sanitize (fetchReadme atob resp)).data ++ post) := by
  refine ⟨?_, ?_, ⟨(projectDetailPre fmtDate r topics).data, "</div>".data, ?_⟩⟩
  · intro s hs hne
    rw [hs]
    simp [mdHtmlOf, hne]
  · rintro (h | h) <;> rw [h] <;> simp [mdHtmlOf]
  · simp [projectDetailHtml, String.data_append, List.append_assoc]

/-- Witness for C2: a concrete ok response with content `"aGk="`
(identity `atob`) renders `sanitize (parse "aGk=")`. -/
theorem c2_readme_render_witness :
    mdHtmlOf id id (fetchReadme id { ok := true, content := some "aGk=" }) = id (id "aGk=") :=
  (c2_readme_render id id id id sampleRepo [] { ok := true, content := some "aGk=" }).1
    "aGk=" (by decide) (by decide)

/-! ## C3: curated merge (`loadBtn` click handler, main.js 355–364) -/

/-- The merge step of the load handler: when the curated document has an
entry under the repository's `name`, attach it as `_curated`, and when
that entry's `description` is truthy overwrite the description; every
other field is untouched. -/
def mergeCurated (curated : String → Option Curated) (r : Repo) : Repo :=
  match curated r.name with
  | some e =>
    { r with
      _curated := some e,
      description :=
        match e.description with
        | some d => if d != "" then some d else r.description
        | none => r.description }
  | none => r

/-- A curated entry supplying the empty string as description. -/
def curatedEmptyDesc : Curated := { description := some "", short := none, tags := none }

/-- A curated entry supplying a non-empty description. -/
def curatedNewDesc : Curated := { description := some "new", short := none, tags := none }

/-- A curated document with a single entry under key `"p"`. -/
def curatedDocP : String → Option Curated :=
  fun n => if n = "p" then some curatedEmptyDesc else none

/-- A curated document with a single entry under key `"x"`. -/
def curatedDocX : String → Option Curated :=
  fun n => if n = "x" then some curatedNewDesc else none

/-- C3 counterexample: the curated document supplies a description (the
empty string) for `sampleRepo`, yet the merged description stays the
fetched `"orig"` instead of the curated description, because the code
tests the description for JS truthiness. -/
theorem c3_claim_counterexample :
    curatedDocP sampleRepo.name = some curatedEmptyDesc ∧
    curatedEmptyDesc.description = some "" ∧
    (mergeCurated curatedDocP sampleRepo).description = some "orig" ∧
    (some "orig" : Option String) ≠ some "" := by
  refine ⟨by decide, by decide, by decide, by decide⟩

/-- C3 (amended): the merged object equals the fetched one in all fields
except that an existing curated entry is attached under `_curated`, and
the description is overwritten exactly when the entry supplies a
non-empty description. -/
theorem c3_mergeCurated_spec (curated : String → Option Curated) (r : Repo) :
    (curated r.name = none → mergeCurated curated r = r) ∧
    (∀ e, curated r.name = some e →
      ((mergeCurated curated r)._curated = some e ∧
       (mergeCurated curated r).name = r.name ∧
       (mergeCurated curated r).full_name = r.full_name ∧
       (mergeCurated curated r).language = r.language ∧
       (mergeCurated curated r).stargazers_count = r.stargazers_count ∧
       (mergeCurated curated r).html_url = r.html_url ∧
       (mergeCurated curated r).homepage = r.homepage ∧
       (mergeCurated curated r).updated_at = r.updated_at ∧
       (∀ d, e.description = some d → d ≠ "" →
          (mergeCurated curated r).description = some d) ∧
       (e.description = none ∨ e.description = some "" →
          (mergeCurated curated r).description = r.description))) := by
  constructor
  · intro h
    simp [mergeCurated, h]
  · intro e he
    simp only [mergeCurated, he, true_and]
    constructor
    · intro d hd hne
      simp [hd, hne]
    · rintro (h | h) <;> simp [h]

/-- Witness for C3: merging a concrete document attaches the entry under
`_curated`. -/
theorem c3_mergeCurated_spec_witness :
    (mergeCurated curatedDocX { sampleRepo with name := "x" })._curated
      = some curatedNewDesc :=
  ((c3_mergeCurated_spec curatedDocX { sampleRepo with name := "x" }).2
    curatedNewDesc (by decide)).1

/-! ## C4: storage footprint (`applyTheme`, main.js 46–62;
`setSessionToken`, main.js 65–71; event handlers) -/

/-- The two browser storage areas the script touches.  `localArea` is
`localStorage` (persists across sessions); `sessionArea` is
`sessionStorage` (page-session scoped). -/
inductive StorageArea where
  | localArea
  | sessionArea
deriving DecidableEq

/-- A storage mutation performed by the script. -/
inductive StorageOp where
  | setItem (area : StorageArea) (key value : String)
  | removeItem (area : StorageArea) (key : String)
deriving DecidableEq

def StorageOp.area : StorageOp → StorageArea
  | .setItem a _ _ => a
  | .removeItem a _ => a

def StorageOp.key : StorageOp → String
  | .setItem _ k _ => k
  | .removeItem _ k => k

/-- Is the operation a write of a value (a `setItem`)? -/
def StorageOp.isSet : StorageOp → Bool
  | .setItem _ _ _ => true
  | .removeItem _ _ => false

/-- `applyTheme` (main.js 46–55) always ends in
`localStorage.setItem("theme", theme)`. -/
def applyThemeOps (theme : String) : List StorageOp :=
  [.setItem .localArea "theme" theme]

/-- `setSessionToken` (main.js 68–71): store the token in
`sessionStorage` under `GHTOKEN` when truthy, remove the entry
otherwise. -/
def setSessionTokenOps (t : String) : List StorageOp :=
  if t != "" then [.setItem .sessionArea "GHTOKEN" t]
  else [.removeItem .sessionArea "GHTOKEN"]

/-- The operations of the program that can touch browser storage.
`pageInit` is the top-level script run (`applyTheme(localStorage.getItem
("theme") || "dark")`); `themeToggleClick` is the theme-toggle handler;
`clearTokenClick` the clear-token handler (`setSessionToken("")`);
`loadClick` the load handler (`if (token) setSessionToken(token)` on the
trimmed token field); the remaining UI events never touch storage. -/
inductive ProgramOp where
  | pageInit (storedTheme : Option String)
  | themeToggleClick (isDark : Bool)
  | clearTokenClick
  | loadClick (tokenField : String)
  | searchInput
  | langFilterChange
  | projectLinkClick
  | modalCloseClick
  | hashChange
deriving DecidableEq

/-- The storage mutations each program operation performs. -/
def storageOpsOf : ProgramOp → List StorageOp
  | .pageInit storedTheme =>
    applyThemeOps
      (match storedTheme with
       | some s => if s != "" then s else "dark"
       | none => "dark")
  | .themeToggleClick isDark => applyThemeOps (if isDark then "light" else "dark")
  | .clearTokenClick => setSessionTokenOps ""
  | .loadClick tokenField =>
    if jsTrim tokenField != "" then setSessionTokenOps (jsTrim tokenField) else []
  | _ => []

/-- C4 counterexample: the theme-toggle click writes the persistent
(`localStorage`) key `"theme"`, so the program does write cross-session
storage, and not only the session bearer-token entry. -/
theorem c4_claim_counterexample :
    StorageOp.setItem .localArea "theme" "light" ∈ storageOpsOf (.themeToggleClick true) ∧
    (StorageOp.setItem .localArea "theme" "light").area ≠ StorageArea.sessionArea ∧
    (StorageOp.setItem .localArea "theme" "light").isSet = true := by
  refine ⟨by decide, by decide, by decide⟩

/-- C4 (amended): across every operation of the program, the only
persistent (cross-session) storage written is the single `localStorage`
entry `"theme"` (by the theme handling), and the only session-scoped
storage touched is the single bearer-token entry `"GHTOKEN"`; no other
storage key is ever written or removed. -/
theorem c4_storage_footprint (p : ProgramOp) (op : StorageOp) (h : op ∈ storageOpsOf p) :
    (op.area = StorageArea.localArea ∧ op.key = "theme" ∧ op.isSet = true) ∨
    (op.area = StorageArea.sessionArea ∧ op.key = "GHTOKEN") := by
  cases p with
  | pageInit storedTheme =>
    simp only [storageOpsOf, applyThemeOps, List.mem_singleton] at h
    subst h
    exact Or.inl ⟨rfl, rfl, rfl⟩
  | themeToggleClick isDark =>
    simp only [storageOpsOf, applyThemeOps, List.mem_singleton] at h
    subst h
    exact Or.inl ⟨rfl, rfl, rfl⟩
  | clearTokenClick =>
    simp only [storageOpsOf, setSessionTokenOps] at h
    simp only [show (("" : String) != "") = false from rfl, Bool.false_eq_true,
      if_false, List.mem_singleton] at h
    subst h
    exact Or.inr ⟨rfl, rfl⟩
  | loadClick tokenField =>
    simp only [storageOpsOf] at h
    by_cases ht : (jsTrim tokenField != "") = true
    · rw [if_pos ht] at h
      simp only [setSessionTokenOps, ht, if_true, List.mem_singleton] at h
      subst h
      exact Or.inr ⟨rfl, rfl⟩
    · rw [if_neg ht] at h
      exact absurd h (List.not_mem_nil op)
  | searchInput => exact absurd h (List.not_mem_nil op)
  | langFilterChange => exact absurd h (List.not_mem_nil op)
  | projectLinkClick => exact absurd h (List.not_mem_nil op)
  | modalCloseClick => exact absurd h (List.not_mem_nil op)
  | hashChange => exact absurd h (List.not_mem_nil op)

/-- Witness for C4 (amended): the clear-token click removes exactly the
session `GHTOKEN` entry. -/
theorem c4_storage_footprint_witness :
    ((StorageOp.removeItem .sessionArea "GHTOKEN").area = StorageArea.localArea ∧
      (StorageOp.removeItem .sessionArea "GHTOKEN").key = "theme" ∧
      (StorageOp.removeItem .sessionArea "GHTOKEN").isSet = true) ∨
    ((StorageOp.removeItem .sessionArea "GHTOKEN").area = StorageArea.sessionArea ∧
      (StorageOp.removeItem .sessionArea "GHTOKEN").key = "GHTOKEN") :=
  c4_storage_footprint .clearTokenClick (.removeItem .sessionArea "GHTOKEN") (by decide)

/-! ## C5: hash-based deep-linking (`openProject` 239–243,
`closeModal` 313–319, `handleHash` 328–336) -/

/-- `const [owner, repo] = fullName.split("/")`: the `owner` part
(JS leaves `undefined` when missing, which interpolates as the string
`"undefined"`). -/
def ownerOf (fullName : String) : String :=
  (jsSplitOn '/' fullName).headD "undefined"

/-- The `repo` part of `fullName.split("/")`. -/
def repoOf (fullName : String) : String :=
  ((jsSplitOn '/' fullName).drop 1).headD "undefined"

/-- The hash prefix used for project deep links. -/
def projectHashPrefix : String := "#/project/"

/-- `location.hash.startsWith("#/project/")`. -/
def isProjectHash (h : String) : Bool :=
  projectHashPrefix.data.isPrefixOf h.data

/-- The placeholder `openProject` puts in the detail element while the
fetches are in flight. -/
def loadingHtml (repo : String) : String :=
  "<h2 class=\"text-xl font-bold mb-2\">" ++ repo ++
    "</h2><div class=\"text-sm text-slate-500 mb-4\">Loading details…</div>"

/-- The navigation/DOM state the hash handling manipulates: the location
hash, whether the modal carries the `hidden` class, the detail
element's `innerHTML`, and which project the last `openProject` call was
asked for (`none` before any open). -/
structure NavState where
  hash : String
  modalHidden : Bool
  detailContent : String
  lastOpened : Option String
deriving DecidableEq

/-- The synchronous navigation effects of `openProject fullName`
(main.js 239–243): replace the URL hash by `#/project/` + fullName,
un-hide the modal and show the loading placeholder. -/
def openProjectNav (fullName : String) (st : NavState) : NavState :=
  { st with
    hash := projectHashPrefix ++ fullName,
    modalHidden := false,
    detailContent := loadingHtml (repoOf fullName),
    lastOpened := some fullName }

/-- `closeModal` (main.js 313–319): hide the modal, empty the detail
element, and clear the hash exactly when it is a project hash
(`history.replaceState(null, "", location.pathname + location.search)`
leaves an empty hash). -/
def closeModal (st : NavState) : NavState :=
  { st with
    modalHidden := true,
    detailContent := "",
    hash := if isProjectHash st.hash then "" else st.hash }

/-- `handleHash` (main.js 328–336): on a project hash, open the project
named by the URI-decoded remainder of
`location.hash.replace("#/project/", "")`; otherwise close the modal.
`decodeURI` stands for the browser's `decodeURIComponent`. -/
def handleHash (decodeURI : String → String) (st : NavState) : NavState :=
  if isProjectHash st.hash then
    openProjectNav (decodeURI (jsReplaceFirst st.hash projectHashPrefix "")) st
  else closeModal st

theorem isProjectHash_append (rest : String) :
    isProjectHash (projectHashPrefix ++ rest) = true := by
  rw [isProjectHash, String.data_append]
  exact isPrefixOf_self_append _ _

theorem jsReplaceFirst_hashPrefix (rest : String) :
    jsReplaceFirst (projectHashPrefix ++ rest) projectHashPrefix "" = rest := by
  rw [jsReplaceFirst, String.data_append]
  rw [show ("" : String).data = [] from rfl, replaceFirstChars_append]
  rfl

/-- C5: (a) when the hash is `#/project/` + rest, the hash handler opens
the project whose full name is the URI-decoded `rest` (un-hiding the
modal); (b) when the hash is not a project hash, it closes and empties
the modal, leaving the hash untouched; (c) opening a project sets the
hash to `#/project/` + full name; (d) closing the modal clears the hash
exactly when it was a project hash. -/
theorem c5_hash_deep_linking (decodeURI : String → String) (st : NavState) :
    (∀ rest, st.hash = projectHashPrefix ++ rest →
      ((handleHash decodeURI st).lastOpened = some (decodeURI rest) ∧
       (handleHash decodeURI st).modalHidden = false ∧
       (handleHash decodeURI st).hash = projectHashPrefix ++ decodeURI rest)) ∧
    (isProjectHash st.hash = false →
      (handleHash decodeURI st = closeModal st ∧
       (handleHash decodeURI st).modalHidden = true ∧
       (handleHash decodeURI st).detailContent = "" ∧
       (handleHash decodeURI st).hash = st.hash)) ∧
    (∀ fullName, (openProjectNav fullName st).hash = projectHashPrefix ++ fullName) ∧
    (isProjectHash st.hash = true → (closeModal st).hash = "") ∧
    (isProjectHash st.hash = false → (closeModal st).hash = st.hash) := by
  refine ⟨?_, ?_, fun fullName => rfl, ?_, ?_⟩
  · intro rest hrest
    have hproj : isProjectHash st.hash = true := by
      rw [hrest]; exact isProjectHash_append rest
    have hrepl : jsReplaceFirst st.hash projectHashPrefix "" = rest := by
      rw [hrest]; exact jsReplaceFirst_hashPrefix rest
    rw [handleHash, if_pos hproj, hrepl]
    exact ⟨rfl, rfl, rfl⟩
  · intro hproj
    rw [handleHash, if_neg (by simp [hproj])]
    refine ⟨rfl, rfl, rfl, ?_⟩
    rw [closeModal]
    simp [hproj]
  · intro hproj
    rw [closeModal]
    simp [hproj]
  · intro hproj
    rw [closeModal]
    simp [hproj]

/-- A concrete starting state carrying a project deep link. -/
def sampleNavState : NavState :=
  { hash := "#/project/u/p", modalHidden := true, detailContent := "", lastOpened := none }

/-- Witness for C5: on the concrete state with hash `#/project/u/p`
(identity URI decoding) the handler records the open of `u/p`. -/
theorem c5_hash_deep_linking_witness :
    (handleHash id sampleNavState).lastOpened = some (id "u/p") :=
  ((c5_hash_deep_linking id sampleNavState).1 "u/p" (by decide)).1

/-! ## C6: merged-collection key uniqueness
(`loadBtn` click handler, main.js 355–364) -/

/-- The whole merge of the load handler:
`fetched.map((r) => { ... merge curated ...; return r })`. -/
def mergeAll (curated : String → Option Curated) (fetched : List Repo) : List Repo :=
  fetched.map (mergeCurated curated)

theorem mergeCurated_full_name (curated : String → Option Curated) (r : Repo) :
    (mergeCurated curated r).full_name = r.full_name := by
  rw [mergeCurated]
  cases curated r.name <;> rfl

/-- C6: the merge step never touches `full_name`, so whenever the
fetched summaries carry pairwise-distinct full names (the hosting API
returns each of a user's repositories once), the merged collection's
full names are pairwise distinct as well. -/
theorem c6_merged_full_names_nodup (curated : String → Option Curated)
    (fetched : List Repo)
    (h : (fetched.map (fun r => r.full_name)).Nodup) :
    ((mergeAll curated fetched).map (fun r => r.full_name)).Nodup := by
  rw [mergeAll, List.map_map]
  have : ((fun r => Repo.full_name r) ∘ mergeCurated curated) =
      fun r => Repo.full_name r := by
    funext r
    exact mergeCurated_full_name curated r
  rw [this]
  exact h

/-- Witness for C6: a concrete two-element fetched list with distinct
full names stays duplicate-free after merging. -/
theorem c6_merged_full_names_nodup_witness :
    ((mergeAll curatedDocP [sampleRepo, { sampleRepo with full_name := "u/q" }]).map
      (fun r => r.full_name)).Nodup :=
  c6_merged_full_names_nodup curatedDocP
    [sampleRepo, { sampleRepo with full_name := "u/q" }] (by decide)

/-! ## C7: modal-open networking (`openProject` 252–256,
`fetchTopics` 123–129) -/

/-- The network requests the script can issue. -/
inductive NetRequest where
  | topicsReq (owner repo : String)
  | readmeReq (owner repo : String)
  | reposReq (url : String)
  | curatedReq (url : String)
deriving DecidableEq

/-- The detail requests `openProject` starts in parallel through
`Promise.all` (main.js 252–256): the topics request and the README
request, and nothing else. -/
def openProjectRequests (fullName : String) : List NetRequest :=
  [.topicsReq (ownerOf fullName) (repoOf fullName),
   .readmeReq (ownerOf fullName) (repoOf fullName)]

structure TopicsResp where
  ok : Bool
  names : Option (List String)
deriving DecidableEq

/-- `fetchTopics` (main.js 123–129) as a promise outcome: a rejected
fetch is the `none` response (`.error`), a non-ok status resolves to
`[]`, and otherwise `json.names || []` resolves. -/
def fetchTopicsResult (resp : Option TopicsResp) : Except Unit (List String) :=
  match resp with
  | none => .error ()
  | some t => if !t.ok then .ok [] else .ok (t.names.getD [])

/-- `fetchTopics(owner, repo).catch(() => [])`. -/
def caughtTopics (resp : Option TopicsResp) : List String :=
  match fetchTopicsResult resp with
  | .ok names => names
  | .error _ => []

/-- `fetchReadme` as a promise outcome (`none` = rejected fetch). -/
def fetchReadmeResult (atob : String → String) (resp : Option ReadmeResp) :
    Except Unit (Option String) :=
  match resp with
  | none => .error ()
  | some r => .ok (fetchReadme atob r)

/-- `fetchReadme(owner, repo).catch(() => null)`. -/
def caughtReadme (atob : String → String) (resp : Option ReadmeResp) : Option String :=
  match fetchReadmeResult atob resp with
  | .ok readme => readme
  | .error _ => none

/-- The HTML `openProject` leaves in the detail element once the two
awaited promises settle: when the opened full name was found among the
loaded repositories, the success template over the recovered topics and
README; otherwise the `catch` branch fires (reading `r.name` of
`undefined` throws) with the thrown message `errMessage`. -/
def openProjectResult (parse sanitize atob fmtDate : String → String)
    (errMessage : String) (found : Option Repo)
    (tResp : Option TopicsResp) (rResp : Option ReadmeResp) : String :=
  match found with
  | some r =>
    projectDetailHtml fmtDate r (caughtTopics tResp)
      (mdHtmlOf parse sanitize (caughtReadme atob rResp))
  | none =>
    "<div class=\"text-sm text-rose-600\">Could not load project details: " ++
      errMessage ++ "</div>"

/-- C7: every modal open issues exactly the two detail requests (topics
and README); a rejected topics request recovers to the empty topics
list, as does a non-ok topics response; a rejected README request
recovers to the no-README placeholder; and whenever the repository was
found, the detail element still receives the success template — the
failure of either request never selects the error branch. -/
theorem c7_modal_open_networking (parse sanitize atob fmtDate : String → String)
    (errMessage fullName : String) (r : Repo)
    (tResp : Option TopicsResp) (rResp : Option ReadmeResp) :
    ((openProjectRequests fullName).length = 2 ∧
      NetRequest.topicsReq (ownerOf fullName) (repoOf fullName) ∈
        openProjectRequests fullName ∧
      NetRequest.readmeReq (ownerOf fullName) (repoOf fullName) ∈
        openProjectRequests fullName) ∧
    (tResp = none → caughtTopics tResp = []) ∧
    (∀ t, t.ok = false → caughtTopics (some t) = []) ∧
    (rResp = none →
      mdHtmlOf parse sanitize (caughtReadme atob rResp) = noReadmeHtml) ∧
    (openProjectResult parse sanitize atob fmtDate errMessage (some r) tResp rResp =
      projectDetailHtml fmtDate r (caughtTopics tResp)
        (mdHtmlOf parse sanitize (caughtReadme atob rResp))) := by
  refine ⟨⟨rfl, ?_, ?_⟩, ?_, ?_, ?_, rfl⟩
  · simp [openProjectRequests]
  · simp [openProjectRequests]
  · intro h
    rw [h]
    rfl
  · intro t ht
    simp [caughtTopics, fetchTopicsResult, ht]
  · intro h
    rw [h]
    rfl

/-- Witness for C7: with both detail requests rejected, the concrete
modal open still renders the success template with no topics and the
placeholder README. -/
theorem c7_modal_open_networking_witness :
    mdHtmlOf id id (caughtReadme id none) = noReadmeHtml :=
  (c7_modal_open_networking id id id id "err" "u/p" sampleRepo none none).2.2.2.1 rfl

/-! ## C8: list-fetch limit (`fetchRepos`, main.js 114–120) -/

/-- The single URL `fetchRepos` requests:
`https://api.github.com/users/${username}/repos?per_page=100&sort=updated`. -/
def fetchReposUrl (username : String) : String :=
  "https://api.github.com/users/" ++ username ++ "/repos?per_page=100&sort=updated"

/-- The requests issued by one `fetchRepos` call: exactly one, and no
follow-up page requests. -/
def fetchReposRequests (username : String) : List NetRequest :=
  [.reposReq (fetchReposUrl username)]

structure ReposResp where
  ok : Bool
  status : Nat
  body : List Repo
deriving DecidableEq

/-- `fetchRepos` (main.js 114–120) on a delivered response: throw
`GitHub API error: ${status}` on a non-ok status, otherwise resolve to
the parsed body unchanged; a rejected fetch propagates. -/
def fetchRepos (resp : Option ReposResp) : Except String (List Repo) :=
  match resp with
  | none => .error "network error"
  | some r =>
    if !r.ok then .error ("GitHub API error: " ++ toString r.status)
    else .ok r.body

/-- Does the request URL leave the page size to the API default, i.e.
carry no `per_page` query parameter? -/
def leavesDefaultPageSize (username : String) : Bool :=
  !(containsSeq "per_page=".data (fetchReposUrl username).data)

/-- C8 counterexample: the list-fetch URL for the default username
explicitly requests `per_page=100`, so the single request is *not* made
at the API's default page size. -/
theorem c8_claim_counterexample :
    leavesDefaultPageSize "erwanngao-maker" = false ∧
    containsSeq "per_page=100".data (fetchReposUrl "erwanngao-maker").data = true := by
  refine ⟨by decide, by decide⟩

/-- C8 (amended): the repository list fetch performs no pagination — for
every username it issues a single request, at the explicitly requested
page size `per_page=100` rather than the API default, and when that one
response arrives ok the loaded collection is exactly its body. -/
theorem c8_single_unpaginated_fetch (username : String) (status : Nat)
    (body : List Repo) :
    (fetchReposRequests username).length = 1 ∧
    containsSeq "per_page=100".data (fetchReposUrl username).data = true ∧
    fetchRepos (some { ok := true, status := status, body := body }) = .ok body := by
  refine ⟨rfl, ?_, rfl⟩
  have hsplit : (fetchReposUrl username).data =
      "https://api.github.com/users/".data ++
        (username.data ++ ("/repos?".data ++
          ("per_page=100".data ++ "&sort=updated".data))) := by
    rw [fetchReposUrl, String.data_append, String.data_append]
    simp only [List.append_assoc]
    rfl
  rw [hsplit]
  apply containsSeq_append_left
  apply containsSeq_append_left
  apply containsSeq_append_left
  exact containsSeq_self_append _ _

/-! ## C9: curated-override loading (`loadCurated`, main.js 94–111)

The curated document is arbitrary JSON, so this claim is settled over a
JSON value type with JS truthiness, property access (`p.repo`, which
throws on `null`) and computed-key assignment (`obj[p.repo] = p`, whose
key is the string conversion of `p.repo`). -/

inductive JValue where
  | jnull
  | jbool (b : Bool)
  | jnum (n : Int)
  | jstr (s : String)
  | jarr (elems : List JValue)
  | jobj (fields : List (String × JValue))

/-- JS truthiness of a JSON value (numbers carry enough of JS number
semantics for truthiness: zero is falsy). -/
def jsTruthy : JValue → Bool
  | .jnull => false
  | .jbool b => b
  | .jnum n => n != 0
  | .jstr s => s != ""
  | .jarr _ => true
  | .jobj _ => true

mutual
/-- JS `ToString` of a JSON value, as used for a computed object key. -/
def jsToStr : JValue → String
  | .jnull => "null"
  | .jbool b => if b then "true" else "false"
  | .jnum n => toString n
  | .jstr s => s
  | .jarr elems => String.intercalate "," (jsToStrElems elems)
  | .jobj _ => "[object Object]"

/-- Array elements under `Array.prototype.toString` (`null` renders
empty). -/
def jsToStrElems : List JValue → List String
  | [] => []
  | v :: vs =>
    (match v with
     | .jnull => ""
     | w => jsToStr w) :: jsToStrElems vs
end

def isObjV : JValue → Bool
  | .jobj _ => true
  | _ => false

def isArrV : JValue → Bool
  | .jarr _ => true
  | _ => false

/-- Property lookup among the fields of a (parsed) object: the last
binding wins, as after `JSON.parse`. -/
def objGet (fields : List (String × JValue)) (k : String) : Option JValue :=
  fields.foldl (fun acc kv => if kv.fst = k then some kv.snd else acc) none

/-- `obj[k] = v` on an insertion-ordered object: overwrite in place when
the key exists, append otherwise. -/
def insertKV (fields : List (String × JValue)) (k : String) (v : JValue) :
    List (String × JValue) :=
  match fields with
  | [] => [(k, v)]
  | kv :: rest => if kv.fst = k then (k, v) :: rest else kv :: insertKV rest k v

/-- `p.repo`: throws a `TypeError` on `null`, is `undefined` on
non-objects, and looks the property up on objects. -/
def getRepoField : JValue → Except Unit (Option JValue)
  | .jnull => .error ()
  | .jobj fields => .ok (objGet fields "repo")
  | _ => .ok none

/-- One iteration of `for (const p of json) if (p.repo) obj[p.repo] = p`. -/
def keyStep (acc : List (String × JValue)) (p : JValue) :
    Except Unit (List (String × JValue)) :=
  match getRepoField p with
  | .error e => .error e
  | .ok (some v) => if jsTruthy v then .ok (insertKV acc (jsToStr v) p) else .ok acc
  | .ok none => .ok acc

/-- The whole keying loop of `loadCurated` over an array document. -/
def keyByRepo : List JValue → List (String × JValue) →
    Except Unit (List (String × JValue))
  | [], acc => .ok acc
  | p :: ps, acc =>
    match keyStep acc p with
    | .ok acc2 => keyByRepo ps acc2
    | .error e => .error e

/-- The loop body when the element cannot throw (is not `null`). -/
def keyStepPure (acc : List (String × JValue)) (p : JValue) :
    List (String × JValue) :=
  match p with
  | .jobj fields =>
    (match objGet fields "repo" with
     | some v => if jsTruthy v then insertKV acc (jsToStr v) (.jobj fields) else acc
     | none => acc)
  | _ => acc

/-- The keying loop as a total function on throw-free arrays. -/
def keyByRepoPure : List JValue → List (String × JValue) → List (String × JValue)
  | [], acc => acc
  | p :: ps, acc => keyByRepoPure ps (keyStepPure acc p)

/-- The outcome of `fetch("/projects/projects.json")`: a rejected fetch,
or a response with an ok flag and a body whose JSON parse may fail. -/
inductive FetchOutcome where
  | netError
  | resp (ok : Bool) (body : Except Unit JValue)

/-- `loadCurated` (main.js 94–111): `{}` on rejection, non-ok status or
parse failure; arrays are keyed by each element's truthy `repo` field
(an element that throws in the loop makes the `catch` return `{}`); any
other document is returned through `json || {}`. -/
def loadCurated : FetchOutcome → JValue
  | .netError => .jobj []
  | .resp ok body =>
    if !ok then .jobj []
    else
      match body with
      | .error _ => .jobj []
      | .ok j =>
        match j with
        | .jarr elems =>
          (match keyByRepo elems [] with
           | .ok fields => .jobj fields
           | .error _ => .jobj [])
        | _ => if jsTruthy j then j else .jobj []

theorem keyStep_of_ne_jnull (acc : List (String × JValue)) (p : JValue)
    (h : p ≠ JValue.jnull) : keyStep acc p = .ok (keyStepPure acc p) := by
  cases p with
  | jnull => exact absurd rfl h
  | jbool b => rfl
  | jnum n => rfl
  | jstr s => rfl
  | jarr elems => rfl
  | jobj fields =>
    simp only [keyStep, getRepoField, keyStepPure]
    cases objGet fields "repo" with
    | none => rfl
    | some v => cases htr : jsTruthy v <;> simp [htr]

theorem keyByRepo_eq_pure (elems : List JValue) (acc : List (String × JValue))
    (h : ∀ p ∈ elems, p ≠ JValue.jnull) :
    keyByRepo elems acc = .ok (keyByRepoPure elems acc) := by
  induction elems generalizing acc with
  | nil => rfl
  | cons p ps ih =>
    have hp : p ≠ JValue.jnull := h p (List.mem_cons_self p ps)
    simp only [keyByRepo, keyStep_of_ne_jnull acc p hp, keyByRepoPure]
    exact ih (keyStepPure acc p) (fun q hq => h q (List.mem_cons_of_mem p hq))

/-- C9 counterexample: a served document that is the JSON number `5`
(truthy, not an object) is returned by `loadCurated` as-is, so
`loadCurated` does not always return an object. -/
theorem c9_claim_counterexample :
    isObjV (loadCurated (.resp true (.ok (.jnum 5)))) = false := by decide

/-- C9 (amended): `loadCurated` is total, and: rejection, a non-ok
status, a parse failure and a falsy document (`null`, `false`, `0`,
`""`) all yield the empty object; an object document is returned
itself; an array document with no `null` element yields the object
keyed by each element's truthy `repo` field, discarding the other
elements; a truthy non-array document is returned unchanged (so a
truthy scalar is *not* an object). -/
theorem c9_loadCurated_total (body : Except Unit JValue)
    (fields : List (String × JValue)) (elems : List JValue) (j : JValue) :
    loadCurated .netError = .jobj [] ∧
    loadCurated (.resp false body) = .jobj [] ∧
    loadCurated (.resp true (.error ())) = .jobj [] ∧
    loadCurated (.resp true (.ok .jnull)) = .jobj [] ∧
    loadCurated (.resp true (.ok (.jobj fields))) = .jobj fields ∧
    ((∀ p ∈ elems, p ≠ JValue.jnull) →
      loadCurated (.resp true (.ok (.jarr elems))) = .jobj (keyByRepoPure elems [])) ∧
    (isArrV j = false → jsTruthy j = true →
      loadCurated (.resp true (.ok j)) = j) ∧
    (isArrV j = false → jsTruthy j = false →
      loadCurated (.resp true (.ok j)) = .jobj []) := by
  refine ⟨rfl, rfl, rfl, rfl, rfl, ?_, ?_, ?_⟩
  · intro h
    simp [loadCurated, keyByRepo_eq_pure elems [] h]
  · intro ha ht
    cases j <;> simp_all [loadCurated, isArrV, jsTruthy]
  · intro ha ht
    cases j <;> simp_all [loadCurated, isArrV, jsTruthy]

/-- A concrete array document with one entry keyed `"p"`. -/
def sampleCuratedArr : List JValue :=
  [.jobj [("repo", .jstr "p"), ("description", .jstr "d")]]

/-- Witness for C9 (amended): the concrete one-entry array document is
keyed by its `repo` field. -/
theorem c9_loadCurated_total_witness :
    loadCurated (.resp true (.ok (.jarr sampleCuratedArr)))
      = .jobj (keyByRepoPure sampleCuratedArr []) :=
  (c9_loadCurated_total (.error ()) [] sampleCuratedArr .jnull).2.2.2.2.2.1
    (by
      intro p hp
      simp only [sampleCuratedArr, List.mem_singleton] at hp
      subst hp
      exact fun hcontra => JValue.noConfusion hcontra)

/-! ## C10: grid rendering and empty state (`renderGrid`,
main.js 146–197) -/

/-- The language chip of a card: `r.language ? span : ""`. -/
def langSpanOf (r : Repo) : String :=
  match r.language with
  | some l => if l != "" then spanTag l else ""
  | none => ""

/-- The tag row of a card:
`r._curated && r._curated.tags ? tags.map(span).join("") : r.language ? span : ""`. -/
def spanTagsOrLang (r : Repo) : String :=
  match r._curated with
  | some c =>
    (match c.tags with
     | some ts => String.join (ts.map spanTag)
     | none => langSpanOf r)
  | none => langSpanOf r

/-- The description fallback of a card:
`(r._curated && r._curated.short) || "—"`. -/
def cardDescFallback (r : Repo) : String :=
  match r._curated with
  | some c =>
    (match c.short with
     | some s => if s != "" then s else "—"
     | none => "—")
  | none => "—"

/-- The description line of a card:
`r.description || (r._curated && r._curated.short) || "—"`. -/
def cardDescription (r : Repo) : String :=
  match r.description with
  | some d => if d != "" then d else cardDescFallback r
  | none => cardDescFallback r

/-- `r.homepage || r.html_url` for the card's Open link. -/
def openHref (r : Repo) : String :=
  match r.homepage with
  | some h => if h != "" then h else r.html_url
  | none => r.html_url

/-- The innerHTML of one grid card (main.js 159–195; inter-tag
indentation whitespace elided). -/
def cardHtml (r : Repo) : String :=
  "<div class=\"flex items-start justify-between gap-3\"><div>" ++
  "<h3 class=\"font-semibold text-lg\"><a href=\"#\" data-repo=\"" ++ r.full_name ++
    "\" class=\"project-link\">" ++ r.name ++ "</a></h3>" ++
  "<p class=\"mt-1 text-sm text-slate-600 dark:text-slate-300 card-clamp\">" ++
    cardDescription r ++ "</p>" ++
  "<div class=\"mt-3 flex flex-wrap gap-2 text-xs\">" ++ spanTagsOrLang r ++ "</div>" ++
  "</div><div class=\"text-right flex-shrink-0\">" ++
  "<div class=\"text-sm text-slate-500 dark:text-slate-400\">★ " ++
    toString r.stargazers_count ++ "</div>" ++
  "<div class=\"mt-4 flex flex-col gap-2\">" ++
  "<a class=\"inline-block text-xs px-2 py-1 rounded-md border\" href=\"" ++
    openHref r ++ "\" target=\"_blank\">Open</a>" ++
  "<a class=\"inline-block text-xs px-2 py-1 rounded-md border\" href=\"" ++
    r.html_url ++ "\" target=\"_blank\">Repo</a>" ++
  "</div></div></div>"

/-- The state `renderGrid` leaves behind: the cards appended to the
(cleared) grid, and whether the `hidden` class sits on the empty-state
element. -/
structure GridView where
  cards : List String
  emptyHidden : Bool
deriving DecidableEq

/-- `renderGrid` (main.js 146–197): clear the grid; on an empty list
show the empty-state and stop, otherwise hide the empty-state and
append one card per entry, in order. -/
def renderGrid (list : List Repo) : GridView :=
  if list.isEmpty then { cards := [], emptyHidden := false }
  else { cards := list.map cardHtml, emptyHidden := true }

/-- C10: after every rendering, the empty-state is visible iff the list
is empty, the grid holds exactly one card per entry in list order, and
hence the grid is empty exactly when the empty-state is shown. -/
theorem c10_renderGrid_spec (list : List Repo) :
    (renderGrid list).cards = list.map cardHtml ∧
    ((renderGrid list).emptyHidden = false ↔ list = []) ∧
    ((renderGrid list).cards = [] ↔ (renderGrid list).emptyHidden = false) ∧
    (renderGrid list).cards.length = list.length := by
  cases list with
  | nil => exact ⟨rfl, by simp [renderGrid], by simp [renderGrid], rfl⟩
  | cons r rs =>
    refine ⟨rfl, by simp [renderGrid], by simp [renderGrid], by simp [renderGrid]⟩

end Portfolio
